import Mathlib

/-!
Shallow embedding of the portfolio-pricer numeric core
(`src/portfolio.py` and `src/analytics.py`).

Python floats are modelled as `ℚ` (exact arithmetic; the spec's claims are
about the exact formulas, not rounding), `None`/NaN-valued cells as
`Option ℚ`, and the square roots taken at the very end of the volatility
computations as `Real.sqrt` over `ℝ`.  Pandas `DataFrame`s are modelled as a
column-name list together with index-keyed rows of optional cells.
-/

/-- `src/portfolio.py` `Position`: a single holding.  `latest_price = none`
models Python `None`. -/
structure Position where
  ticker : String
  quantity : ℚ
  avg_cost : ℚ
  latest_price : Option ℚ := none
  sector : Option String := none
deriving DecidableEq, Repr

/-- `Position.cost_basis` (portfolio.py line 24): `quantity * avg_cost`. -/
def cost_basis (p : Position) : ℚ := p.quantity * p.avg_cost

/-- `Position.market_value` (portfolio.py line 28): `None` if the price is
absent, else `quantity * latest_price`. -/
def market_value (p : Position) : Option ℚ :=
  match p.latest_price with
  | none => none
  | some price => some (p.quantity * price)

/-- `Position.unrealized_pl` (portfolio.py line 34). -/
def unrealized_pl (p : Position) : Option ℚ :=
  match market_value p with
  | none => none
  | some mv => some (mv - cost_basis p)

/-- `Position.unrealized_pl_pct` (portfolio.py line 40). -/
def unrealized_pl_pct (p : Position) : Option ℚ :=
  match unrealized_pl p with
  | none => none
  | some upl => if cost_basis p = 0 then none else some (upl / cost_basis p * 100)

/-- `src/portfolio.py` `Portfolio`: a list of positions. -/
structure Portfolio where
  positions : List Position := []
deriving DecidableEq, Repr

/-- `Portfolio.total_cost_basis` (portfolio.py line 104): Python
`sum(p.cost_basis for p in self.positions)`, a left fold starting at `0`. -/
def total_cost_basis (pf : Portfolio) : ℚ :=
  pf.positions.foldl (fun acc p => acc + cost_basis p) 0

/-- `Portfolio.total_market_value` (portfolio.py lines 107-111): collect the
defined market values; `None` when there are none, else their sum. -/
def total_market_value (pf : Portfolio) : Option ℚ :=
  let values := pf.positions.filterMap market_value
  if values.isEmpty then none else some values.sum

/-- `Portfolio.total_unrealized_pl` (portfolio.py lines 114-117). -/
def total_unrealized_pl (pf : Portfolio) : Option ℚ :=
  match total_market_value pf with
  | none => none
  | some tmv => some (tmv - total_cost_basis pf)

/-- `Portfolio.total_unrealized_pl_pct` (portfolio.py lines 120-123). -/
def total_unrealized_pl_pct (pf : Portfolio) : Option ℚ :=
  match total_unrealized_pl pf with
  | none => none
  | some t => if total_cost_basis pf = 0 then none else some (t / total_cost_basis pf * 100)

/-- Python exception raised by `Portfolio.to_dataframe`: building
`pd.DataFrame([])` from zero rows yields a frame with no columns, so the
subsequent `df["market_value"]` access raises `KeyError`. -/
inductive PyErr where
  | keyError
deriving DecidableEq, Repr

/-- One row of the dataframe built by `Portfolio.to_dataframe`
(portfolio.py lines 82-92). -/
structure PRow where
  ticker : String
  quantity : ℚ
  avg_cost : ℚ
  cost_basis : ℚ
  latest_price : Option ℚ
  market_value : Option ℚ
  unrealized_pl : Option ℚ
  unrealized_pl_pct : Option ℚ
  sector : Option String
deriving DecidableEq, Repr

/-- The dict built for one position in the `to_dataframe` loop. -/
def mkRow (p : Position) : PRow :=
  ⟨p.ticker, p.quantity, p.avg_cost, cost_basis p, p.latest_price,
   market_value p, unrealized_pl p, unrealized_pl_pct p, p.sector⟩

/-- `df["market_value"].notna().any()` (portfolio.py line 96). -/
def anyDefined (pf : Portfolio) : Bool :=
  pf.positions.any fun p => (market_value p).isSome

/-- `df["market_value"].fillna(0.0).sum()` (portfolio.py line 97). -/
def totalValue (pf : Portfolio) : ℚ :=
  (pf.positions.map fun p => (market_value p).getD 0).sum

/-- `(df["market_value"].fillna(0.0) / total_value) * 100.0`
(portfolio.py line 99). -/
def weightList (pf : Portfolio) : List ℚ :=
  pf.positions.map fun p => (market_value p).getD 0 / totalValue pf * 100

/-- `Portfolio.to_dataframe` (portfolio.py lines 76-100).  The result is the
list of rows together with the optional `weight_pct` column; with zero
positions `pd.DataFrame([])` has no columns and the `df["market_value"]`
access raises `KeyError`. -/
def to_dataframe (pf : Portfolio) : Except PyErr (List PRow × Option (List ℚ)) :=
  let rows := pf.positions.map mkRow
  if rows.isEmpty then Except.error PyErr.keyError
  else
    Except.ok (rows,
      if anyDefined pf then
        (if 0 < totalValue pf then some (weightList pf) else none)
      else none)

/-!
State-passing translations of the `Portfolio` methods: Python objects are
mutable, so each method is modelled as a function from the receiver state to
a result paired with the state after the call.  Loops of the bodies thread
the state through every iteration; no statement of any body assigns to
`self.positions` or to a position's fields.
-/

/-- `to_dataframe` with the receiver state threaded through the row loop. -/
def to_dataframeS (pf : Portfolio) : Except PyErr (List PRow × Option (List ℚ)) × Portfolio :=
  let st := pf.positions.foldl (fun (st : List PRow × Portfolio) p => (st.1 ++ [mkRow p], st.2)) ([], pf)
  if st.1.isEmpty then (Except.error PyErr.keyError, st.2)
  else
    (Except.ok (st.1,
      if anyDefined st.2 then
        (if 0 < totalValue st.2 then some (weightList st.2) else none)
      else none), st.2)

/-- `total_cost_basis` with the state threaded through the generator sum. -/
def total_cost_basisS (pf : Portfolio) : ℚ × Portfolio :=
  pf.positions.foldl (fun (st : ℚ × Portfolio) p => (st.1 + cost_basis p, st.2)) (0, pf)

/-- `total_market_value` with the state threaded through the comprehension. -/
def total_market_valueS (pf : Portfolio) : Option ℚ × Portfolio :=
  let st := pf.positions.foldl
    (fun (st : List ℚ × Portfolio) p =>
      (match market_value p with
       | some v => st.1 ++ [v]
       | none => st.1, st.2)) ([], pf)
  ((if st.1.isEmpty then none else some st.1.sum), st.2)

/-- `total_unrealized_pl` with the state threaded through its reads. -/
def total_unrealized_plS (pf : Portfolio) : Option ℚ × Portfolio :=
  match total_market_valueS pf with
  | (none, pf1) => (none, pf1)
  | (some tmv, pf1) =>
    let st := total_cost_basisS pf1
    (some (tmv - st.1), st.2)

/-- `total_unrealized_pl_pct` with the state threaded through its reads. -/
def total_unrealized_pl_pctS (pf : Portfolio) : Option ℚ × Portfolio :=
  match total_unrealized_plS pf with
  | (none, pf1) => (none, pf1)
  | (some t, pf1) =>
    let st := total_cost_basisS pf1
    if st.1 = 0 then (none, st.2) else (some (t / st.1 * 100), st.2)

/-!  `src/analytics.py`: dataframes of optional cells keyed by date. -/

/-- A pandas `DataFrame` with a date index: ordered column names and
index-keyed rows of optional (`NaN`-able) cells. -/
structure DFrame where
  cols : List String
  rows : List (ℤ × List (Option ℚ))
deriving DecidableEq, Repr

/-- `DataFrame.empty`: true iff either axis has length zero. -/
def DFrame.isEmpty (t : DFrame) : Bool :=
  t.rows.isEmpty || t.cols.isEmpty

/-- Stable insertion of a row into a date-sorted row list (a later row with
an equal date stays after the earlier one, as pandas `sort_index` is
stable). -/
def insertRow (x : ℤ × List (Option ℚ)) :
    List (ℤ × List (Option ℚ)) → List (ℤ × List (Option ℚ))
  | [] => [x]
  | y :: ys => if x.1 < y.1 then x :: y :: ys else y :: insertRow x ys

/-- `DataFrame.sort_index()`: stable sort of the rows by date ascending. -/
def sortRows (rs : List (ℤ × List (Option ℚ))) : List (ℤ × List (Option ℚ)) :=
  rs.foldl (fun acc x => insertRow x acc) []

/-- One cell of `pct_change` (no forward fill): `(cur - prev) / prev` when
both cells are present, else `NaN`. -/
def pctCell : Option ℚ → Option ℚ → Option ℚ
  | some a, some b => some ((b - a) / a)
  | _, _ => none

/-- Rows of consecutive percentage changes starting from row `prev`. -/
def diffsFrom (prev : ℤ × List (Option ℚ)) :
    List (ℤ × List (Option ℚ)) → List (ℤ × List (Option ℚ))
  | [] => []
  | r :: rs => (r.1, List.zipWith pctCell prev.2 r.2) :: diffsFrom r rs

/-- `DataFrame.pct_change()`: the first row becomes all-`NaN`, every later
row is the percentage change against its predecessor. -/
def pctChange : List (ℤ × List (Option ℚ)) → List (ℤ × List (Option ℚ))
  | [] => []
  | r0 :: rest => (r0.1, r0.2.map fun _ => (none : Option ℚ)) :: diffsFrom r0 rest

/-- Consecutive percentage-change rows with the leading row never emitted:
the spec's reading of the differencing step. -/
def specDiffs : List (ℤ × List (Option ℚ)) → List (ℤ × List (Option ℚ))
  | [] => []
  | r0 :: rest => diffsFrom r0 rest

/-- `DataFrame.dropna(how="all")`: keep exactly the rows with at least one
present cell. -/
def dropAllNa (rs : List (ℤ × List (Option ℚ))) : List (ℤ × List (Option ℚ)) :=
  rs.filter fun r => r.2.any Option.isSome

/-- `compute_daily_returns` (analytics.py lines 13-20):
`price_history.sort_index().pct_change().dropna(how="all")`, with an empty
input short-circuited to an empty frame. -/
def compute_daily_returns (t : DFrame) : DFrame :=
  if t.isEmpty then ⟨[], []⟩
  else ⟨t.cols, dropAllNa (pctChange (sortRows t.rows))⟩

/-- Modelled from the spec's words for `daily_returns` (§4.3): sort by date
ascending, difference consecutive rows per ticker (the leading row has no
prior value and is dropped), then drop rows undefined across all tickers,
keeping partially-undefined rows. -/
def dailyReturnsSpec (t : DFrame) : DFrame :=
  if t.isEmpty then ⟨[], []⟩
  else ⟨t.cols, dropAllNa (specDiffs (sortRows t.rows))⟩

/-- Column `j` of a frame as a list of optional cells. -/
def column (t : DFrame) (j : ℕ) : List (Option ℚ) :=
  t.rows.map fun r => r.2.getD j none

/-- Pandas sample variance of a column (`Series.std()` squared): skip the
missing cells, use Bessel's correction (divide by `n - 1`), and yield `NaN`
when fewer than two cells are present (`0/0` in floats). -/
def sampleVar (cells : List (Option ℚ)) : Option ℚ :=
  let xs := cells.filterMap id
  let n := xs.length
  if 2 ≤ n then
    let m := xs.sum / (n : ℚ)
    some ((xs.map fun x => (x - m) ^ 2).sum / ((n : ℚ) - 1))
  else none

/-- `annualized_volatility` (analytics.py lines 23-33): per-column
`returns.std() * np.sqrt(trading_days)`, the empty frame giving an empty
series.  The result is listed in column order. -/
noncomputable def annualized_volatility (t : DFrame) (trading_days : ℕ) : List (Option ℝ) :=
  if t.isEmpty then []
  else (List.range t.cols.length).map fun j =>
    (sampleVar (column t j)).map fun (v : ℚ) => Real.sqrt (v : ℝ) * Real.sqrt (trading_days : ℝ)

/-- One entry of `DataFrame.cov()`: pairwise-complete sample covariance of
columns `i` and `j` (rows where either cell is missing are excluded for
this pair; means are taken over the included rows; divide by `n - 1`;
`NaN` when fewer than two rows are included). -/
def covEntry (t : DFrame) (i j : ℕ) : Option ℚ :=
  let ps := t.rows.filterMap fun r =>
    match r.2.getD i none, r.2.getD j none with
    | some a, some b => some (a, b)
    | _, _ => none
  let n := ps.length
  if 2 ≤ n then
    let ma := (ps.map Prod.fst).sum / (n : ℚ)
    let mb := (ps.map Prod.snd).sum / (n : ℚ)
    some ((ps.map fun p => (p.1 - ma) * (p.2 - mb)).sum / ((n : ℚ) - 1))
  else none

/-- `float(np.dot(w.T, np.dot(cov.values, w)))` (analytics.py line 50):
`NaN` (here `none`) as soon as any needed covariance entry is `NaN`, since
IEEE multiplication and addition propagate `NaN`. -/
def dailyVariance (t : DFrame) (w : List ℚ) : Option ℚ :=
  let n := t.cols.length
  let terms := ((List.range n).map fun i => (List.range n).map fun j =>
    (covEntry t i j).map fun c => w.getD i 0 * w.getD j 0 * c).flatten
  if terms.all Option.isSome then some (terms.filterMap id).sum else none

/-- The error raised by `portfolio_volatility` on a weight/column length
mismatch — the spec's §7 names it `DimensionMismatchError`. -/
inductive VolErr where
  | dimensionMismatch
deriving DecidableEq, Repr

/-- The Python value returned by `portfolio_volatility`: `None`, a float
`NaN`, or an ordinary float. -/
inductive VolResult where
  | none
  | nan
  | val (x : ℝ)

/-- `portfolio_volatility` (analytics.py lines 36-53): empty frame first
(`None`), then the dimension check (raise), then
`sqrt(daily_var) * sqrt(trading_days)` guarded by `daily_var < 0 → None`;
a `NaN` variance fails the `< 0` test and flows through `sqrt` to a `NaN`
result. -/
noncomputable def portfolio_volatility (t : DFrame) (w : List ℚ) (trading_days : ℕ) :
    Except VolErr VolResult :=
  if t.isEmpty then Except.ok VolResult.none
  else if t.cols.length ≠ w.length then Except.error VolErr.dimensionMismatch
  else
    match dailyVariance t w with
    | Option.none => Except.ok VolResult.nan
    | Option.some q =>
      if q < 0 then Except.ok VolResult.none
      else Except.ok (VolResult.val (Real.sqrt (q : ℝ) * Real.sqrt (trading_days : ℝ)))

/-!  Helper lemmas. -/

theorem foldl_add_cost_basis (l : List Position) (c : ℚ) :
    l.foldl (fun acc p => acc + cost_basis p) c = c + (l.map cost_basis).sum := by
  induction l generalizing c with
  | nil => simp
  | cons p rest ih => simp [List.foldl_cons, ih (c + cost_basis p)]; ring

theorem filterMap_mv_sum (l : List Position) :
    (l.filterMap market_value).sum = (l.map fun p => (market_value p).getD 0).sum := by
  induction l with
  | nil => rfl
  | cons p rest ih =>
    cases h : market_value p <;>
      simp [List.filterMap_cons, h, ih]

theorem map_div_total_sum (l : List ℚ) (T : ℚ) :
    (l.map fun a => a / T * 100).sum = l.sum / T * 100 := by
  induction l with
  | nil => simp
  | cons a rest ih =>
    simp only [List.map_cons, List.sum_cons, ih]
    rw [add_div, add_mul]

/-!
C1.  Derived fields of a `Position`.
-/

/-- C1: for every `Position`, `cost_basis = quantity * avg_cost`; with a
present `latest_price`, `market_value = quantity * latest_price` and
`unrealized_pl = market_value - cost_basis`; with the price absent both are
undefined; and `unrealized_pl_pct = unrealized_pl / cost_basis * 100`,
undefined exactly when `cost_basis = 0` or `unrealized_pl` is undefined. -/
theorem position_derived_fields :
    (∀ p : Position, cost_basis p = p.quantity * p.avg_cost) ∧
    (∀ (p : Position) (q : ℚ), p.latest_price = some q →
      market_value p = some (p.quantity * q) ∧
      unrealized_pl p = some (p.quantity * q - cost_basis p)) ∧
    (∀ p : Position, p.latest_price = none →
      market_value p = none ∧ unrealized_pl p = none) ∧
    (∀ p : Position, unrealized_pl_pct p = none ↔
      (cost_basis p = 0 ∨ unrealized_pl p = none)) ∧
    (∀ (p : Position) (u : ℚ), unrealized_pl p = some u → cost_basis p ≠ 0 →
      unrealized_pl_pct p = some (u / cost_basis p * 100)) := by
  refine ⟨fun p => rfl, fun p q h => ?_, fun p h => ?_, fun p => ?_, fun p u h hc => ?_⟩
  · constructor
    · simp [market_value, h]
    · simp [unrealized_pl, market_value, h]
  · constructor
    · simp [market_value, h]
    · simp [unrealized_pl, market_value, h]
  · cases h : unrealized_pl p with
    | none => simp [unrealized_pl_pct, h]
    | some u =>
      by_cases hc : cost_basis p = 0
      · simp [unrealized_pl_pct, h, hc]
      · simp [unrealized_pl_pct, h, hc]
  · simp [unrealized_pl_pct, h, hc]

/-- C1 witness at concrete positions (one priced, one unpriced). -/
theorem position_derived_fields_witness :
    (market_value ⟨"AAA", 10, 100, some 110, none⟩ = some (10 * 110) ∧
     unrealized_pl ⟨"AAA", 10, 100, some 110, none⟩ =
       some (10 * 110 - cost_basis ⟨"AAA", 10, 100, some 110, none⟩)) ∧
    (market_value ⟨"BBB", 5, 200, none, none⟩ = none ∧
     unrealized_pl ⟨"BBB", 5, 200, none, none⟩ = none) ∧
    unrealized_pl_pct ⟨"AAA", 10, 100, some 110, none⟩ =
      some (100 / cost_basis ⟨"AAA", 10, 100, some 110, none⟩ * 100) :=
  ⟨position_derived_fields.2.1 _ 110 rfl,
   position_derived_fields.2.2.1 _ rfl,
   position_derived_fields.2.2.2.2 _ 100
     (by norm_num [unrealized_pl, market_value, cost_basis])
     (by norm_num [cost_basis])⟩

/-!
C2.  Portfolio totals.
-/

/-- C2: `total_cost_basis` is the sum of `cost_basis` over all positions
(`0` on the empty portfolio); `total_market_value` is undefined exactly when
no position has a defined market value, and otherwise equals the sum of
market values with missing ones contributing `0`. -/
theorem portfolio_totals :
    (∀ pf : Portfolio, total_cost_basis pf = (pf.positions.map cost_basis).sum) ∧
    total_cost_basis ⟨[]⟩ = 0 ∧
    (∀ pf : Portfolio, total_market_value pf = none ↔
      ∀ p ∈ pf.positions, market_value p = none) ∧
    (∀ pf : Portfolio, (∃ p ∈ pf.positions, (market_value p).isSome) →
      total_market_value pf =
        some ((pf.positions.map fun p => (market_value p).getD 0).sum)) := by
  refine ⟨fun pf => ?_, rfl, fun pf => ?_, fun pf h => ?_⟩
  · simpa using foldl_add_cost_basis pf.positions 0
  · unfold total_market_value
    by_cases h : pf.positions.filterMap market_value = []
    · simp [h, List.filterMap_eq_nil_iff.mp h]
      intro p hp
      exact (List.filterMap_eq_nil_iff.mp h) p hp
    · simp only [h, List.isEmpty_iff, if_neg h]
      constructor
      · intro hfalse; exact absurd hfalse (by simp)
      · intro hall
        exact absurd (List.filterMap_eq_nil_iff.mpr fun p hp => hall p hp) h
  · obtain ⟨p, hp, hsome⟩ := h
    have hne : pf.positions.filterMap market_value ≠ [] := by
      intro hnil
      rw [List.filterMap_eq_nil_iff] at hnil
      rw [hnil p hp] at hsome
      exact absurd hsome (by simp)
    unfold total_market_value
    simp only [List.isEmpty_iff, if_neg hne]
    rw [filterMap_mv_sum]

/-- C2 witness: a portfolio with one priced and one unpriced position, and a
portfolio with only unpriced positions. -/
theorem portfolio_totals_witness :
    total_cost_basis ⟨[⟨"AAA", 10, 100, some 110, none⟩, ⟨"BBB", 5, 200, none, none⟩]⟩ =
      ([1000, 1000] : List ℚ).sum ∧
    total_market_value ⟨[⟨"AAA", 10, 100, some 110, none⟩, ⟨"BBB", 5, 200, none, none⟩]⟩ =
      some ([1100, 0] : List ℚ).sum ∧
    total_market_value ⟨[⟨"CCC", 1, 5, none, none⟩]⟩ = none := by
  refine ⟨?_, ?_, ?_⟩
  · have h := portfolio_totals.1 ⟨[⟨"AAA", 10, 100, some 110, none⟩, ⟨"BBB", 5, 200, none, none⟩]⟩
    rw [h]
    norm_num [cost_basis]
  · have h := portfolio_totals.2.2.2 ⟨[⟨"AAA", 10, 100, some 110, none⟩, ⟨"BBB", 5, 200, none, none⟩]⟩
      ⟨⟨"AAA", 10, 100, some 110, none⟩, by simp, by simp [market_value]⟩
    rw [h]
    norm_num [market_value]
  · exact (portfolio_totals.2.2.1 ⟨[⟨"CCC", 1, 5, none, none⟩]⟩).mpr
      (by intro p hp; simp at hp; simp [hp, market_value])

/-!
C4.  Aggregating the empty portfolio.
-/

/-- C4 (code bug): on the empty portfolio the totals behave as the claim
says (`total_cost_basis = 0`, `total_market_value` undefined), but
`to_dataframe` raises instead of returning a report: `pd.DataFrame([])` has
no columns, so line 96's `df["market_value"]` access raises `KeyError`. -/
theorem empty_portfolio_aggregate :
    to_dataframe ⟨[]⟩ = Except.error PyErr.keyError ∧
    total_cost_basis ⟨[]⟩ = 0 ∧
    total_market_value ⟨[]⟩ = none := by
  refine ⟨?_, rfl, rfl⟩
  simp [to_dataframe]

/-!
C3.  Weight sum invariant of `to_dataframe`.
-/

theorem weightList_sum (pf : Portfolio) (h : 0 < totalValue pf) :
    (weightList pf).sum = 100 := by
  have hmm : weightList pf =
      (pf.positions.map fun p => (market_value p).getD 0).map fun a => a / totalValue pf * 100 := by
    simp [weightList, List.map_map]
  rw [hmm, map_div_total_sum]
  rw [show ((pf.positions.map fun p => (market_value p).getD 0).sum = totalValue pf) from rfl]
  rw [div_self h.ne']
  norm_num

/-- C3: when some position has a defined market value and the fillna-0 total
is strictly positive, `to_dataframe` assigns every position a weight and the
weights sum to 100 within `1e-6`; when the total is not strictly positive
the whole weight column is omitted. -/
theorem weight_sum_invariant :
    (∀ pf : Portfolio, anyDefined pf = true → 0 < totalValue pf →
      ∃ rows ws, to_dataframe pf = Except.ok (rows, some ws) ∧
        ws.length = pf.positions.length ∧ |ws.sum - 100| ≤ 1 / 1000000) ∧
    (∀ (pf : Portfolio) (rows : List PRow) (wopt : Option (List ℚ)),
      to_dataframe pf = Except.ok (rows, wopt) → ¬ 0 < totalValue pf →
      wopt = none) := by
  constructor
  · intro pf h1 h2
    have hne : pf.positions ≠ [] := by
      intro hnil
      rw [anyDefined, hnil] at h1
      simp at h1
    have hrows : (pf.positions.map mkRow).isEmpty = false := by
      simp [List.isEmpty_iff, hne]
    refine ⟨pf.positions.map mkRow, weightList pf, ?_, ?_, ?_⟩
    · simp [to_dataframe, hrows, h1, h2]
    · simp [weightList]
    · rw [weightList_sum pf h2]
      norm_num
  · intro pf rows wopt h hT
    by_cases hrows : (pf.positions.map mkRow).isEmpty
    · simp [to_dataframe, hrows] at h
    · simp only [to_dataframe, hrows, Bool.false_eq_true, if_false, if_neg hT] at h
      obtain ⟨-, hw⟩ := Prod.mk.injEq .. ▸ (Except.ok.injEq .. ▸ h)
      by_cases hd : anyDefined pf
      · simpa [hd, hT] using hw.symm
      · simpa [hd] using hw.symm

/-- C3 witness: the spec §8 concrete portfolio, whose weights are 50/50. -/
theorem weight_sum_invariant_witness :
    ∃ rows ws,
      to_dataframe ⟨[⟨"AAA", 10, 100, some 110, none⟩, ⟨"BBB", 5, 200, some 180, none⟩]⟩ =
        Except.ok (rows, some ws) ∧
      ws.length =
        (Portfolio.mk [⟨"AAA", 10, 100, some 110, none⟩,
          ⟨"BBB", 5, 200, some 180, none⟩]).positions.length ∧
      |ws.sum - 100| ≤ 1 / 1000000 :=
  weight_sum_invariant.1
    ⟨[⟨"AAA", 10, 100, some 110, none⟩, ⟨"BBB", 5, 200, some 180, none⟩]⟩
    (by norm_num [anyDefined, market_value])
    (by norm_num [totalValue, market_value])

/-!
C9.  Missing-price positions get weight exactly 0.
-/

theorem getD_map_div (f : Position → ℚ) (l : List Position) (d dp : _) :
    ∀ i, i < l.length → (l.map f).getD i d = f (l.getD i dp) := by
  induction l with
  | nil => intro i hi; simp at hi
  | cons p rest ih =>
    intro i hi
    cases i with
    | zero => rfl
    | succ n =>
      simp only [List.map_cons, List.getD_cons_succ]
      exact ih n (Nat.succ_lt_succ_iff.mp hi)

/-- C9: whenever `to_dataframe` produces a weight column, a position whose
`latest_price` is absent gets the defined weight `0` (its market value is
`fillna`-ed to `0.0`), not an undefined weight. -/
theorem missing_price_weight_zero :
    ∀ (pf : Portfolio) (rows : List PRow) (ws : List ℚ),
      to_dataframe pf = Except.ok (rows, some ws) →
      ws.length = pf.positions.length ∧
      ∀ i, i < pf.positions.length →
        (pf.positions.getD i ⟨"", 0, 0, none, none⟩).latest_price = none →
        ws.getD i 1 = 0 := by
  intro pf rows ws h
  by_cases hrows : (pf.positions.map mkRow).isEmpty
  · simp [to_dataframe, hrows] at h
  · simp only [to_dataframe, hrows, Bool.false_eq_true, if_false] at h
    obtain ⟨-, hw⟩ := Prod.mk.injEq .. ▸ (Except.ok.injEq .. ▸ h)
    by_cases hd : anyDefined pf
    · by_cases hT : 0 < totalValue pf
      · simp only [hd, if_true, hT] at hw
        obtain rfl : ws = weightList pf := by
          simpa using hw.symm
        constructor
        · simp [weightList]
        · intro i hi hnone
          rw [weightList,
            getD_map_div (fun p => (market_value p).getD 0 / totalValue pf * 100)
              pf.positions 1 ⟨"", 0, 0, none, none⟩ i hi]
          rw [market_value, hnone]
          simp
      · simp [hd, hT] at hw
    · simp [hd] at hw

/-- C9 witness: a priced and an unpriced position; the unpriced one's weight
entry is exactly 0. -/
theorem missing_price_weight_zero_witness :
    ([100, 0] : List ℚ).getD 1 1 = 0 :=
  (missing_price_weight_zero
    ⟨[⟨"AAA", 10, 100, some 110, none⟩, ⟨"BBB", 5, 200, none, none⟩]⟩
    [⟨"AAA", 10, 100, 1000, some 110, some 1100, some 100, some 10, none⟩,
     ⟨"BBB", 5, 200, 1000, none, none, none, none, none⟩]
    [100, 0]
    (by norm_num [to_dataframe, mkRow, cost_basis, market_value, unrealized_pl,
      unrealized_pl_pct, anyDefined, totalValue, weightList])).2
    1 (by norm_num) rfl

/-!
C10.  Aggregation does not mutate the portfolio.
-/

theorem to_dataframeS_eq (pf : Portfolio) :
    to_dataframeS pf = (to_dataframe pf, pf) := by
  have hfold : ∀ (l : List Position) (acc : List PRow),
      l.foldl (fun (st : List PRow × Portfolio) p => (st.1 ++ [mkRow p], st.2)) (acc, pf) =
        (acc ++ l.map mkRow, pf) := by
    intro l
    induction l with
    | nil => intro acc; simp
    | cons p rest ih => intro acc; simp [ih (acc ++ [mkRow p])]
  rw [to_dataframeS, to_dataframe]
  rw [hfold pf.positions []]
  by_cases hrows : (pf.positions.map mkRow).isEmpty <;> simp [hrows]

theorem total_cost_basisS_eq (pf : Portfolio) :
    total_cost_basisS pf = (total_cost_basis pf, pf) := by
  have hfold : ∀ (l : List Position) (c : ℚ),
      l.foldl (fun (st : ℚ × Portfolio) p => (st.1 + cost_basis p, st.2)) (c, pf) =
        (l.foldl (fun a p => a + cost_basis p) c, pf) := by
    intro l
    induction l with
    | nil => intro c; rfl
    | cons p rest ih => intro c; simp [List.foldl_cons, ih]
  rw [total_cost_basisS, total_cost_basis, hfold pf.positions 0]

theorem total_market_valueS_eq (pf : Portfolio) :
    total_market_valueS pf = (total_market_value pf, pf) := by
  have hfold : ∀ (l : List Position) (acc : List ℚ),
      l.foldl (fun (st : List ℚ × Portfolio) p =>
        (match market_value p with
         | some v => st.1 ++ [v]
         | none => st.1, st.2)) (acc, pf) =
        (acc ++ l.filterMap market_value, pf) := by
    intro l
    induction l with
    | nil => intro acc; simp
    | cons p rest ih =>
      intro acc
      cases h : market_value p <;> simp [List.foldl_cons, h, ih]
  rw [total_market_valueS, total_market_value, hfold pf.positions []]
  simp

theorem total_unrealized_plS_eq (pf : Portfolio) :
    total_unrealized_plS pf = (total_unrealized_pl pf, pf) := by
  rw [total_unrealized_plS, total_unrealized_pl]
  rw [total_market_valueS_eq pf]
  cases h : total_market_value pf <;>
    simp [h, total_cost_basisS_eq pf]

theorem total_unrealized_pl_pctS_eq (pf : Portfolio) :
    total_unrealized_pl_pctS pf = (total_unrealized_pl_pct pf, pf) := by
  rw [total_unrealized_pl_pctS, total_unrealized_pl_pct]
  rw [total_unrealized_plS_eq pf]
  cases h : total_unrealized_pl pf with
  | none => simp [h]
  | some t =>
    simp only [h, total_cost_basisS_eq pf]
    by_cases hc : total_cost_basis pf = 0 <;> simp [hc]

/-- C10: the state-passing translations of `to_dataframe` and the four
totals leave the receiver `Portfolio` (its positions list and every field of
every position) unchanged, and return the same values as the pure
functions. -/
theorem aggregation_no_mutation :
    ∀ pf : Portfolio,
      (to_dataframeS pf).2 = pf ∧ (to_dataframeS pf).1 = to_dataframe pf ∧
      (total_cost_basisS pf).2 = pf ∧ (total_cost_basisS pf).1 = total_cost_basis pf ∧
      (total_market_valueS pf).2 = pf ∧ (total_market_valueS pf).1 = total_market_value pf ∧
      (total_unrealized_plS pf).2 = pf ∧
      (total_unrealized_plS pf).1 = total_unrealized_pl pf ∧
      (total_unrealized_pl_pctS pf).2 = pf ∧
      (total_unrealized_pl_pctS pf).1 = total_unrealized_pl_pct pf ∧
      (to_dataframeS pf).2.positions = pf.positions := by
  intro pf
  rw [to_dataframeS_eq, total_cost_basisS_eq, total_market_valueS_eq,
    total_unrealized_plS_eq, total_unrealized_pl_pctS_eq]
  exact ⟨rfl, rfl, rfl, rfl, rfl, rfl, rfl, rfl, rfl, rfl, rfl⟩

/-!
C5.  Dimension check of `portfolio_volatility`.
-/

/-- C5 counterexample: a 2-column return table with no rows is `empty`, so
with a 3-element weight vector the code returns `None` at line 45 before
the dimension check at line 47 ever runs — it does not raise. -/
theorem dimension_check_counterexample :
    (DFrame.mk ["AAA", "BBB"] []).cols.length = 2 ∧
    ([1, 1, 1] : List ℚ).length = 3 ∧
    portfolio_volatility ⟨["AAA", "BBB"], []⟩ [1, 1, 1] 252 = Except.ok VolResult.none := by
  refine ⟨rfl, rfl, ?_⟩
  rw [portfolio_volatility]
  simp [DFrame.isEmpty]

/-- C5 (amended): for every NON-empty return table, a weight vector whose
length differs from the column count makes `portfolio_volatility` fail with
the dimension-mismatch error. -/
theorem dimension_mismatch_raises (t : DFrame) (w : List ℚ) (d : ℕ)
    (h1 : t.isEmpty = false) (h2 : t.cols.length ≠ w.length) :
    portfolio_volatility t w d = Except.error VolErr.dimensionMismatch := by
  rw [portfolio_volatility, h1]
  simp [h2]

/-- C5 witness: a non-empty 2-column return table against 3 weights. -/
theorem dimension_mismatch_raises_witness :
    portfolio_volatility ⟨["AAA", "BBB"], [(0, [some 1, some 2])]⟩ [1, 1, 1] 252 =
      Except.error VolErr.dimensionMismatch :=
  dimension_mismatch_raises _ _ _ rfl (by norm_num)

/-!
C6.  `compute_daily_returns`.
-/

theorem any_isSome_map_const_none (l : List (Option ℚ)) :
    ((l.map fun _ => (none : Option ℚ)).any Option.isSome) = false := by
  induction l with
  | nil => rfl
  | cons a rest ih => simp [ih]

/-- C6: `compute_daily_returns` equals the spec's reading (sort ascending,
difference consecutive rows per ticker, drop the leading row, drop the
all-undefined rows while keeping partially-undefined ones); an empty input
yields the empty frame; and on the strictly increasing single-ticker series
`[100, 101, 102, 103]` the output has exactly 3 rows, all entries defined
and strictly positive. -/
theorem daily_returns_behavior :
    (∀ t : DFrame, compute_daily_returns t = dailyReturnsSpec t) ∧
    (∀ t : DFrame, t.isEmpty = true → compute_daily_returns t = ⟨[], []⟩) ∧
    ((compute_daily_returns ⟨["AAA"],
        [(0, [some 100]), (1, [some 101]), (2, [some 102]), (3, [some 103])]⟩).rows.length = 3 ∧
      ∀ r ∈ (compute_daily_returns ⟨["AAA"],
        [(0, [some 100]), (1, [some 101]), (2, [some 102]), (3, [some 103])]⟩).rows,
        ∀ c ∈ r.2, c.isSome = true ∧ 0 < c.getD 0) := by
  have hdrop : ∀ rs : List (ℤ × List (Option ℚ)),
      dropAllNa (pctChange rs) = dropAllNa (specDiffs rs) := by
    intro rs
    cases rs with
    | nil => rfl
    | cons r0 rest =>
      rw [pctChange, specDiffs, dropAllNa, List.filter_cons]
      simp [any_isSome_map_const_none r0.2, dropAllNa]
  have hconc : compute_daily_returns ⟨["AAA"],
      [(0, [some 100]), (1, [some 101]), (2, [some 102]), (3, [some 103])]⟩ =
      ⟨["AAA"], [(1, [some (1 / 100)]), (2, [some (1 / 101)]), (3, [some (1 / 102)])]⟩ := by
    rw [compute_daily_returns]
    norm_num [DFrame.isEmpty, sortRows, insertRow, pctChange, diffsFrom, pctCell, dropAllNa]
  refine ⟨fun t => ?_, fun t h => ?_, ?_, ?_⟩
  · rw [compute_daily_returns, dailyReturnsSpec]
    by_cases h : t.isEmpty <;> simp [h, hdrop]
  · rw [compute_daily_returns, h]
    simp
  · rw [hconc]
    rfl
  · rw [hconc]
    intro r hr c hc
    simp only [List.mem_cons, List.not_mem_nil, or_false] at hr
    rcases hr with rfl | rfl | rfl <;>
      · simp only [List.mem_cons, List.not_mem_nil, or_false] at hc
        subst hc
        exact ⟨rfl, by norm_num⟩

/-- C6 witness: the empty frame and an empty single-column frame map to the
empty frame. -/
theorem daily_returns_behavior_witness :
    compute_daily_returns ⟨[], []⟩ = ⟨[], []⟩ ∧
    compute_daily_returns ⟨["AAA"], []⟩ = ⟨[], []⟩ :=
  ⟨daily_returns_behavior.2.1 _ rfl, daily_returns_behavior.2.1 _ rfl⟩

/-!
C7.  `annualized_volatility`.
-/

theorem getD_map_gen {α β : Type} (f : α → β) (l : List α) (d : β) (dp : α) :
    ∀ i, i < l.length → (l.map f).getD i d = f (l.getD i dp) := by
  induction l with
  | nil => intro i hi; simp at hi
  | cons a rest ih =>
    intro i hi
    cases i with
    | zero => rfl
    | succ n =>
      simp only [List.map_cons, List.getD_cons_succ]
      exact ih n (Nat.succ_lt_succ_iff.mp hi)

theorem sampleVar_nonneg (cells : List (Option ℚ)) (q : ℚ)
    (h : sampleVar cells = some q) : 0 ≤ q := by
  rw [sampleVar] at h
  by_cases h2 : 2 ≤ (cells.filterMap id).length
  · simp only [h2, if_true, Option.some.injEq] at h
    subst h
    apply div_nonneg
    · apply List.sum_nonneg
      intro x hx
      simp only [List.mem_map] at hx
      obtain ⟨y, -, rfl⟩ := hx
      positivity
    · have hc : (2 : ℚ) ≤ ((cells.filterMap id).length : ℚ) := by exact_mod_cast h2
      linarith
  · simp [h2] at h

theorem sampleVar_isSome (cells : List (Option ℚ))
    (h : 2 ≤ (cells.filterMap id).length) : (sampleVar cells).isSome = true := by
  rw [sampleVar]
  simp [h]

/-- C7: `annualized_volatility` sends the empty frame to the empty series;
the per-column sample variance is defined from as few as 2 present return
observations; and each defined entry is
`sqrt(sample variance) * sqrt(trading_days)`, i.e. the unique nonnegative
`v` with `v ^ 2 = variance * trading_days`. -/
theorem annualized_volatility_behavior :
    (∀ (t : DFrame) (d : ℕ), t.isEmpty = true → annualized_volatility t d = []) ∧
    (∀ cells : List (Option ℚ), 2 ≤ (cells.filterMap id).length →
      (sampleVar cells).isSome = true) ∧
    (∀ (t : DFrame) (d j : ℕ) (q : ℚ), t.isEmpty = false → j < t.cols.length →
      sampleVar (column t j) = some q →
      (annualized_volatility t d).getD j none =
        some (Real.sqrt (q : ℝ) * Real.sqrt (d : ℝ)) ∧
      ∃ v : ℝ, (annualized_volatility t d).getD j none = some v ∧ 0 ≤ v ∧
        v ^ 2 = (q : ℝ) * (d : ℝ)) := by
  refine ⟨fun t d h => ?_, sampleVar_isSome, fun t d j q h1 hj hq => ?_⟩
  · rw [annualized_volatility, h]
    simp
  · have hentry : (annualized_volatility t d).getD j none =
        some (Real.sqrt (q : ℝ) * Real.sqrt (d : ℝ)) := by
      rw [annualized_volatility, h1]
      simp only [Bool.false_eq_true, if_false]
      rw [getD_map_gen _ (List.range t.cols.length) none 0 j (by simpa using hj)]
      rw [List.getD_eq_getElem?_getD, List.getElem?_range (by simpa using hj)]
      simp [hq]
    refine ⟨hentry, Real.sqrt (q : ℝ) * Real.sqrt (d : ℝ), hentry, ?_, ?_⟩
    · exact mul_nonneg (Real.sqrt_nonneg _) (Real.sqrt_nonneg _)
    · have hq0 : (0 : ℝ) ≤ (q : ℝ) := by
        exact_mod_cast sampleVar_nonneg _ _ hq
      have hd0 : (0 : ℝ) ≤ (d : ℝ) := by positivity
      rw [mul_pow, Real.sq_sqrt hq0, Real.sq_sqrt hd0]

/-- C7 witness: the single-column return series `[1, 2, 3]` has sample
variance 1 and a defined annualized volatility. -/
theorem annualized_volatility_behavior_witness :
    (annualized_volatility ⟨["AAA"], [(0, [some 1]), (1, [some 2]), (2, [some 3])]⟩ 252).getD
        0 none =
      some (Real.sqrt ((1 : ℚ) : ℝ) * Real.sqrt ((252 : ℕ) : ℝ)) ∧
    (sampleVar [some 1, some 2, some 3]).isSome = true :=
  ⟨(annualized_volatility_behavior.2.2
      ⟨["AAA"], [(0, [some 1]), (1, [some 2]), (2, [some 3])]⟩ 252 0 1 rfl (by norm_num)
      (by norm_num [sampleVar, column, List.filterMap_cons, id])).1,
   annualized_volatility_behavior.2.1 [some 1, some 2, some 3]
     (by norm_num [List.filterMap_cons, id])⟩

/-!
C8.  Negative-variance guard of `portfolio_volatility`.
-/

/-- C8: an empty return table yields `None`, and on a non-empty table with
matching weight length a negative computed daily variance `wᵀ·Cov·w` yields
`None` — never an exception and never a `NaN` from `sqrt` of a negative. -/
theorem portfolio_volatility_guard :
    (∀ (t : DFrame) (w : List ℚ) (d : ℕ), t.isEmpty = true →
      portfolio_volatility t w d = Except.ok VolResult.none) ∧
    (∀ (t : DFrame) (w : List ℚ) (d : ℕ) (q : ℚ), t.isEmpty = false →
      t.cols.length = w.length → dailyVariance t w = some q → q < 0 →
      portfolio_volatility t w d = Except.ok VolResult.none) := by
  constructor
  · intro t w d h
    rw [portfolio_volatility, h]
    simp
  · intro t w d q h1 h2 h3 h4
    rw [portfolio_volatility, h1]
    simp [h2, h3, h4]

set_option maxHeartbeats 1600000 in
/-- C8 witness: pairwise deletion of missing cells makes the covariance
matrix of this 3-column table non-positive-semidefinite, and the weights
`[1, -1, 1]` give the strictly negative daily variance `-2`; the call
returns `None`. -/
theorem portfolio_volatility_guard_witness :
    portfolio_volatility
      ⟨["A", "B", "C"],
        [(0, [some 1, some 1, none]), (1, [some 2, some 2, none]),
         (2, [some 1, none, some 2]), (3, [some 2, none, some 1]),
         (4, [none, some 1, some 1]), (5, [none, some 2, some 2])]⟩
      [1, -1, 1] 252 = Except.ok VolResult.none :=
  portfolio_volatility_guard.2 _ _ 252 (-2) rfl rfl
    (by norm_num [dailyVariance, covEntry, List.filterMap_cons, List.range_succ])
    (by norm_num)
